import Mathlib

/-
Verification of the DensePose-Teacher chart-based loss module
(`densepose/modeling/losses/chart.py`) against its specification.

The module is embedded shallowly over ℚ.  Tensor scalars that flow out of the
loss functions are modelled by `TVal`: a rational value (`none` standing for
IEEE NaN, which PyTorch produces e.g. for the mean of an empty tensor)
together with the list of input-tensor names the value is graph-connected to.
The external utilities the module consumes (bilinear point extraction,
geometric resampling, annotation packing, the coarse-segmentation loss) are
out of scope of the repository sources and are modelled from the spec, either
as explicit parameters or as spec-modelled definitions; each such definition
says so in its doc comment.
-/

set_option autoImplicit false

namespace DensePoseTeacher

/-- A differentiable scalar: `val` is the numeric value (`none` = NaN) and
`deps` lists the names of the input tensors the value is graph-connected to
(the autograd dependency set, at the granularity of whole input tensors). -/
structure TVal where
  val : Option ℚ
  deps : List String
  deriving DecidableEq, Repr

/-- Multiplication of a differentiable scalar by a plain constant: NaN
propagates (IEEE: `NaN * 0 = NaN`) and the dependency set is unchanged. -/
def TVal.smul (a : TVal) (c : ℚ) : TVal :=
  ⟨a.val.map (fun x => x * c), a.deps⟩

/-- Concatenation of lists produced by a function (`List.bind`), written out
explicitly to stay version-independent. -/
def listBind {α β : Type} (xs : List α) (f : α → List β) : List β :=
  xs.foldr (fun a acc => f a ++ acc) []

/-- Boolean-mask indexing `t[mask]` on matching-length lists. -/
def maskFilter {α : Type} (xs : List α) (m : List Bool) : List α :=
  (xs.zip m).filterMap (fun p => if p.2 then some p.1 else none)

/-- Mean of a list of rationals; the mean of an empty tensor is NaN
(`none`), as in PyTorch. -/
def meanQOpt (xs : List ℚ) : Option ℚ :=
  if xs.isEmpty then none else some (xs.sum / (xs.length : ℚ))

/-- `clamp(x, 0., 1.)`. -/
def clamp01 (x : ℚ) : ℚ := min 1 (max 0 x)

/-- Pointwise smooth-L1 (Huber, beta = 1): quadratic for `|d| < 1`,
linear otherwise. -/
def smoothL1 (x y : ℚ) : ℚ :=
  if |x - y| < 1 then (x - y) ^ 2 / 2 else |x - y| - 1 / 2

/-- Maximum entry of a row (`torch.max(·, dim=1).values` for one row). -/
def maxQ (xs : List ℚ) : ℚ := xs.foldl max (xs.headD 0)

/-- Index of the first occurrence of the maximal entry (`torch.argmax` along
the channel dimension for one row). -/
def argmaxIdx (xs : List ℚ) : ℕ :=
  (xs.zip (List.range xs.length)).foldl
    (fun best p => if xs.getD best 0 < p.1 then p.2 else best) 0

/-- Stable insertion into a list of indices kept in descending order of
`key`. -/
def insertDesc (key : ℕ → ℚ) (i : ℕ) : List ℕ → List ℕ
  | [] => [i]
  | j :: rest => if key j < key i then i :: j :: rest else j :: insertDesc key i rest

/-- Indices `0, …, n-1` sorted by decreasing row value
(`torch.argsort(·, descending=True)` for one row; stable on ties). -/
def argsortDesc (xs : List ℚ) : List ℕ :=
  (List.range xs.length).foldr (insertDesc (fun i => xs.getD i 0)) []

/-- `clamp(one_hot(clamp(idx, 0, n-1), n), 1e-4, 1.0)`: a one-hot row whose
zeros are clamped up to `1/10000`. -/
def oneHotClamp (n : ℕ) (idx : ℕ) : List ℚ :=
  (List.range n).map (fun j => if j = min idx (n - 1) then 1 else 1 / 10000)

/-- Three-list `zipWith`. -/
def zipWith3Q (f : ℚ → ℚ → ℚ → ℚ) (a b c : List ℚ) : List ℚ :=
  List.zipWith (fun x (yz : ℚ × ℚ) => f x yz.1 yz.2) a (b.zip c)

/-- A named dense rank-4 tensor `[n, c, h, w]`; entries outside the declared
shape read as `0` (never exercised by in-range code paths). -/
structure Tensor4 where
  name : String
  n : ℕ
  c : ℕ
  h : ℕ
  w : ℕ
  data : ℕ → ℕ → ℕ → ℕ → ℚ

/-- Sum of all entries of a rank-4 tensor (`Tensor.sum()`), as a value
graph-connected to that tensor. -/
def sum4 (t : Tensor4) : ℚ :=
  ((List.range t.n).map (fun i =>
    ((List.range t.c).map (fun j =>
      ((List.range t.h).map (fun y =>
        ((List.range t.w).map (fun x => t.data i j y x)).sum)).sum)).sum)).sum

/-- `t.sum()` as a differentiable scalar. -/
def sumT (t : Tensor4) : TVal := ⟨some (sum4 t), [t.name]⟩

/-- A named dense rank-3 tensor `[n, h, w]` (the packed ground-truth coarse
segmentation). -/
structure Tensor3 where
  name : String
  n : ℕ
  h : ℕ
  w : ℕ
  data : ℕ → ℕ → ℕ → ℚ

/-- `t.unsqueeze(1)`: insert a singleton channel dimension. -/
def unsqueeze1 (t : Tensor3) : Tensor4 :=
  ⟨t.name, t.n, 1, t.h, t.w, fun i _ y x => t.data i y x⟩

/-- `t[idxs].permute(0, 2, 3, 1).reshape(-1, nCh)`: one channel row per
`(selected region, y, x)` position, in row-major order. -/
def rowsSelected (t : Tensor4) (idxs : List ℕ) (nCh : ℕ) : List (List ℚ) :=
  listBind idxs (fun i =>
    listBind (List.range t.h) (fun y =>
      (List.range t.w).map (fun x =>
        (List.range nCh).map (fun ch => t.data i ch y x))))

/-- `t.permute(0, 2, 3, 1).reshape(-1, nCh)` over the whole batch. -/
def rowsAll (t : Tensor4) (nCh : ℕ) : List (List ℚ) :=
  rowsSelected t (List.range t.n) nCh

/-- DensePose predictor outputs consumed by the loss (`coarse_segm`,
`fine_segm`, `u`, `v`, each `[N, C, S, S]`). -/
structure DensePoseOutputs where
  coarse_segm : Tensor4
  fine_segm : Tensor4
  u : Tensor4
  v : Tensor4

/-- Correction-head predictor outputs (`u`, `v`, `fine_segm`). -/
structure CorrectorPredictorOutput where
  u : Tensor4
  v : Tensor4
  fine_segm : Tensor4

/-- Packed (flattened, region-aligned) ground-truth annotations, as produced
by the external annotation packer.  Pseudo-label fields are optional. -/
structure PackedAnnotations where
  fine_segm_labels_gt : List ℕ
  u_gt : List ℚ
  v_gt : List ℚ
  coarse_segm_gt : Tensor3
  bbox_xywh_gt : List (List ℚ)
  bbox_xywh_est : List (List ℚ)
  bbox_indices : List ℕ
  fine_segm_p : Option Tensor4
  u_p : Option Tensor4
  v_p : Option Tensor4

/-- Modelled from the spec: the Point-Alignment Adapter state
(`BilinearInterpolationHelper`, an external capability of
`densepose/modeling/losses/utils.py`, absent from the sources): per annotated
point, the containing region, the four surrounding grid corners with their
bilinear weights, the default channel slice (the ground-truth fine label) and
the validity flag `j_valid`. -/
structure BilinearInterpolationHelper where
  j_valid : List Bool
  pt_bbox_indices : List ℕ
  y_lo : List ℕ
  y_hi : List ℕ
  x_lo : List ℕ
  x_hi : List ℕ
  w_ylo_xlo : List ℚ
  w_ylo_xhi : List ℚ
  w_yhi_xlo : List ℚ
  w_yhi_xhi : List ℚ
  slice_fine_segm : List ℕ

/-- Modelled from the spec: `interpolator.extract_at_points(z)` with the
default per-point channel slice — bilinear interpolation of the four nearest
grid cells of the point's region, at the point's ground-truth channel. -/
def extract_at_points (hlp : BilinearInterpolationHelper) (z : Tensor4) : List ℚ :=
  (List.range hlp.j_valid.length).map (fun j =>
    let nI := hlp.pt_bbox_indices.getD j 0
    let ch := hlp.slice_fine_segm.getD j 0
    hlp.w_ylo_xlo.getD j 0 * z.data nI ch (hlp.y_lo.getD j 0) (hlp.x_lo.getD j 0)
      + hlp.w_ylo_xhi.getD j 0 * z.data nI ch (hlp.y_lo.getD j 0) (hlp.x_hi.getD j 0)
      + hlp.w_yhi_xlo.getD j 0 * z.data nI ch (hlp.y_hi.getD j 0) (hlp.x_lo.getD j 0)
      + hlp.w_yhi_xhi.getD j 0 * z.data nI ch (hlp.y_hi.getD j 0) (hlp.x_hi.getD j 0))

/-- Modelled from the spec: `interpolator.extract_at_points(z,
slice_fine_segm=slice(None), w_…=w_…[:, None])` — full-channel bilinear
extraction, one score row per annotated point. -/
def extract_at_points_all (hlp : BilinearInterpolationHelper) (z : Tensor4) :
    List (List ℚ) :=
  (List.range hlp.j_valid.length).map (fun j =>
    let nI := hlp.pt_bbox_indices.getD j 0
    (List.range z.c).map (fun ch =>
      hlp.w_ylo_xlo.getD j 0 * z.data nI ch (hlp.y_lo.getD j 0) (hlp.x_lo.getD j 0)
        + hlp.w_ylo_xhi.getD j 0 * z.data nI ch (hlp.y_lo.getD j 0) (hlp.x_hi.getD j 0)
        + hlp.w_yhi_xlo.getD j 0 * z.data nI ch (hlp.y_hi.getD j 0) (hlp.x_lo.getD j 0)
        + hlp.w_yhi_xhi.getD j 0 * z.data nI ch (hlp.y_hi.getD j 0) (hlp.x_hi.getD j 0)))

/-- The geometric resampler `resample_data` (external capability, consumed
with `mode` and `padding_mode` arguments), abstracted as a function. -/
abbrev ResampleFn : Type :=
  Tensor4 → List (List ℚ) → List (List ℚ) → ℕ → ℕ → String → String → Tensor4

/-- Per-row softmax cross entropy `crossEntropy(scores, label)` (external
transcendental primitive), abstracted as a function from a score row and a
target index to the per-point loss. -/
abbrev CEFn : Type := List ℚ → ℕ → ℚ

/-- The loss dictionary: an insertion-ordered string-keyed map.  All merges
performed by the module are over disjoint key sets, so dictionary merge is
list concatenation. -/
abbrev LossDict : Type := List (String × TVal)

/-- First-match key lookup in a loss dictionary. -/
def dictLookup : LossDict → String → Option TVal
  | [], _ => none
  | kv :: rest, k => if kv.1 = k then some kv.2 else dictLookup rest k

/-- Configuration options read by `DensePoseChartLoss.__init__`. -/
structure Cfg where
  heatmap_size : ℕ
  point_regression_weights : ℚ
  part_weights : ℚ
  index_weights : ℚ
  num_coarse_segm_channels : ℕ
  coarse_segm_trained_by_masks : Bool
  semi_segm_weights : ℚ
  semi_points_weights : ℚ
  semi_threshold : ℚ
  num_patches : ℕ
  semi_loss_name : String
  semi_uv_loss_channels : ℕ
  cor_points_weights : ℚ
  cor_segm_weights : ℚ

/-- The state constructed by `DensePoseChartLoss.__init__` (the constant
`log2pi` is stored but never read by any loss path and is omitted; the
`segm_loss` sub-module is external and passed explicitly where used). -/
structure DensePoseChartLossState where
  heatmap_size : ℕ
  w_points : ℚ
  w_part : ℚ
  w_segm : ℚ
  n_segm_chan : ℕ
  segm_trained_by_masks : Bool
  w_p_segm : ℚ
  w_p_points : ℚ
  pseudo_threshold : ℚ
  n_channels : ℕ
  loss_name : String
  uv_loss_channels : ℕ
  w_crt_points : ℚ
  w_crt_segm : ℚ

namespace DensePoseChartLoss

/-- `DensePoseChartLoss.__init__`: plain field reads from the configuration;
the body contains no validation of any option. -/
def init (cfg : Cfg) : DensePoseChartLossState :=
  { heatmap_size := cfg.heatmap_size
    w_points := cfg.point_regression_weights
    w_part := cfg.part_weights
    w_segm := cfg.index_weights
    n_segm_chan := cfg.num_coarse_segm_channels
    segm_trained_by_masks := cfg.coarse_segm_trained_by_masks
    w_p_segm := cfg.semi_segm_weights
    w_p_points := cfg.semi_points_weights
    pseudo_threshold := cfg.semi_threshold
    n_channels := cfg.num_patches + 1
    loss_name := cfg.semi_loss_name
    uv_loss_channels := cfg.semi_uv_loss_channels
    w_crt_points := cfg.cor_points_weights
    w_crt_segm := cfg.cor_segm_weights }

/-- The constructor as a fallible operation: its body performs only field
reads and one addition, so it never raises. -/
def initE (cfg : Cfg) : Except String DensePoseChartLossState :=
  Except.ok (init cfg)

end DensePoseChartLoss

/-- Modelled from the spec: `MaskOrSegmentationLoss.fake_value` (external
coarse/mask segmentation loss module, absent from the sources) — a zero
scalar graph-connected to the coarse segmentation output. -/
def segmLossFakeValue (outputs : DensePoseOutputs) : TVal :=
  (sumT outputs.coarse_segm).smul 0

/-- `produce_fake_densepose_losses_uv`: zero-valued, graph-connected U/V
losses, plus correction U/V entries exactly when corrections are present. -/
def produce_fake_densepose_losses_uv (outputs : DensePoseOutputs)
    (corrections : Option CorrectorPredictorOutput) : LossDict :=
  [("loss_densepose_U", (sumT outputs.u).smul 0),
   ("loss_densepose_V", (sumT outputs.v).smul 0)]
    ++ match corrections with
       | none => []
       | some corr =>
         [("loss_correction_U", (sumT corr.u).smul 0),
          ("loss_correction_V", (sumT corr.v).smul 0)]

/-- `produce_fake_densepose_losses_unsup`: zero-valued, graph-connected
pseudo-branch losses. -/
def produce_fake_densepose_losses_unsup (outputs : DensePoseOutputs) : LossDict :=
  [("loss_unsup_segm", (sumT outputs.fine_segm).smul 0),
   ("loss_u_p", (sumT outputs.u).smul 0),
   ("loss_v_p", (sumT outputs.v).smul 0)]

/-- `produce_fake_densepose_losses_segm`: zero-valued, graph-connected fine
and coarse segmentation losses, plus the correction entry exactly when
corrections are present. -/
def produce_fake_densepose_losses_segm (outputs : DensePoseOutputs)
    (corrections : Option CorrectorPredictorOutput) : LossDict :=
  [("loss_densepose_I", (sumT outputs.fine_segm).smul 0),
   ("loss_densepose_S", segmLossFakeValue outputs)]
    ++ match corrections with
       | none => []
       | some corr => [("loss_correction_I", (sumT corr.fine_segm).smul 0)]

/-- `produce_fake_densepose_losses`: merge of the three fake branch maps
(key sets disjoint, so dictionary merge is concatenation). -/
def produce_fake_densepose_losses (outputs : DensePoseOutputs)
    (corrections : Option CorrectorPredictorOutput) : LossDict :=
  produce_fake_densepose_losses_uv outputs corrections
    ++ produce_fake_densepose_losses_segm outputs corrections
    ++ produce_fake_densepose_losses_unsup outputs

/-- `produce_densepose_losses_uv`: smooth-L1 U/V regression at
`j_valid_fg`-restricted annotated points (sum reduction, scaled by
`w_points`), plus, when corrections are present, smooth-L1 regression of the
correction head against the detached residual `gt - clamp(est, 0, 1)`
(sum reduction, scaled by `w_crt_points`). -/
def produce_densepose_losses_uv (st : DensePoseChartLossState)
    (outputs : DensePoseOutputs) (pa : PackedAnnotations)
    (hlp : BilinearInterpolationHelper) (j_valid_fg : List Bool)
    (corrections : Option CorrectorPredictorOutput) : LossDict :=
  let u_gt := maskFilter pa.u_gt j_valid_fg
  let u_est := maskFilter (extract_at_points hlp outputs.u) j_valid_fg
  let v_gt := maskFilter pa.v_gt j_valid_fg
  let v_est := maskFilter (extract_at_points hlp outputs.v) j_valid_fg
  [("loss_densepose_U",
    ⟨some ((List.zipWith smoothL1 u_est u_gt).sum * st.w_points), [outputs.u.name]⟩),
   ("loss_densepose_V",
    ⟨some ((List.zipWith smoothL1 v_est v_gt).sum * st.w_points), [outputs.v.name]⟩)]
    ++ match corrections with
       | none => []
       | some corr =>
         let u_crt_est := maskFilter (extract_at_points hlp corr.u) j_valid_fg
         let v_crt_est := maskFilter (extract_at_points hlp corr.v) j_valid_fg
         -- with torch.no_grad(): the residual targets are detached data
         let u_crt_gt := List.zipWith (fun g e => g - clamp01 e) u_gt u_est
         let v_crt_gt := List.zipWith (fun g e => g - clamp01 e) v_gt v_est
         [("loss_correction_U",
           ⟨some ((List.zipWith smoothL1 u_crt_est u_crt_gt).sum * st.w_crt_points),
            [corr.u.name]⟩),
          ("loss_correction_V",
           ⟨some ((List.zipWith smoothL1 v_crt_est v_crt_gt).sum * st.w_crt_points),
            [corr.v.name]⟩)]

/-- `produce_densepose_losses_segm`: mean cross entropy of full-channel
extracted fine-segmentation scores against ground-truth labels at all
`j_valid` points (scaled by `w_part`); the coarse loss delegated to the
external module (its scalar passed in as `segmLossVal`, scaled by `w_segm`);
and, when corrections are present, the correction classification loss with
abstain targets and 2x weighting of agreement points (mean reduction, scaled
by `w_crt_segm`). -/
def produce_densepose_losses_segm (st : DensePoseChartLossState) (ce : CEFn)
    (segmLossVal : TVal) (outputs : DensePoseOutputs) (pa : PackedAnnotations)
    (hlp : BilinearInterpolationHelper)
    (corrections : Option CorrectorPredictorOutput) : LossDict :=
  let fine_segm_gt := maskFilter pa.fine_segm_labels_gt hlp.j_valid
  let fine_segm_est :=
    maskFilter (extract_at_points_all hlp outputs.fine_segm) hlp.j_valid
  [("loss_densepose_I",
    ⟨(meanQOpt (List.zipWith ce fine_segm_est fine_segm_gt)).map (fun x => x * st.w_part),
     [outputs.fine_segm.name]⟩),
   ("loss_densepose_S", segmLossVal.smul st.w_segm)]
    ++ match corrections with
       | none => []
       | some corr =>
         let fine_segm_crt_est :=
           maskFilter (extract_at_points_all hlp corr.fine_segm) hlp.j_valid
         -- with torch.no_grad(): index = argmax(est) != gt,
         -- crt_gt = n_channels everywhere, overwritten by gt where index
         let indexD :=
           List.zipWith (fun row g => decide (argmaxIdx row ≠ g)) fine_segm_est fine_segm_gt
         let fine_segm_crt_gt :=
           List.zipWith (fun b g => if b then g else st.n_channels) indexD fine_segm_gt
         let crt_loss := List.zipWith ce fine_segm_crt_est fine_segm_crt_gt
         -- crt_loss[~index] = crt_loss[~index] * 2
         let crt_loss2 := List.zipWith (fun b l => if b then l else l * 2) indexD crt_loss
         [("loss_correction_I",
           ⟨(meanQOpt crt_loss2).map (fun x => x * st.w_crt_segm),
            [corr.fine_segm.name]⟩)]

/-- The foreground position mask of the pseudo branch:
`resample_data(coarse_segm_gt.unsqueeze(1), bbox_gt, bbox_est, hs, hs,
mode="nearest", padding_mode="zeros").squeeze(1) > 0`, flattened. -/
def posIndex (st : DensePoseChartLossState) (rs : ResampleFn)
    (pa : PackedAnnotations) : List Bool :=
  let pt := rs (unsqueeze1 pa.coarse_segm_gt) pa.bbox_xywh_gt pa.bbox_xywh_est
    st.heatmap_size st.heatmap_size "nearest" "zeros"
  listBind (List.range pt.n) (fun i =>
    listBind (List.range pt.h) (fun y =>
      (List.range pt.w).map (fun x => decide (0 < pt.data i 0 y x))))

/-- Teacher pseudo rows of the pseudo branch: the pseudo tensor resampled
into student box geometry (nearest, zero padding), flattened to channel rows
and restricted to foreground positions. -/
def unsupPseudoRows (st : DensePoseChartLossState) (rs : ResampleFn)
    (pa : PackedAnnotations) (tp : Tensor4) : List (List ℚ) :=
  maskFilter
    (rowsAll (rs tp pa.bbox_xywh_gt pa.bbox_xywh_est st.heatmap_size st.heatmap_size
      "nearest" "zeros") st.n_channels)
    (posIndex st rs pa)

/-- Per-point pseudo max confidence `segm_conf` of the pseudo branch. -/
def unsupSegmConf (st : DensePoseChartLossState) (rs : ResampleFn)
    (pa : PackedAnnotations) (fsp : Tensor4) : List ℚ :=
  (unsupPseudoRows st rs pa fsp).map maxQ

/-- The confidence gate of the pseudo fine-segmentation iteration: when
`pseudo_threshold < 1`, build `mask = segm_conf >= pseudo_threshold`, fall
back (`none`) when no point passes, and otherwise restrict `pred_index`,
student estimates and confidences; when `pseudo_threshold >= 1` the gate is
skipped and `mask` stays `None`. -/
def unsupGate (st : DensePoseChartLossState) (segm_conf : List ℚ)
    (pred_index : List (List ℕ)) (est : List (List ℚ)) :
    Option (Option (List Bool) × List (List ℕ) × List (List ℚ) × List ℚ) :=
  if st.pseudo_threshold < 1 then
    let mask := segm_conf.map (fun c_ => decide (st.pseudo_threshold ≤ c_))
    if mask.count true = 0 then none
    else some (some mask, maskFilter pred_index mask, maskFilter est mask,
      maskFilter segm_conf mask)
  else some (none, pred_index, est, segm_conf)

/-- One U or V iteration of the pseudo-branch loop: student and resampled
teacher rows at foreground positions, confidence-masked when gating is
active, gathered at the top-K channel ranks of the fine-segmentation
iteration (concatenated across the K channels), with elementwise smooth L1;
`"sce"` reuses the segmentation weights, `"ce"` takes the plain mean, any
other `loss_name` adds no entry.  (Elementwise products are over matching
lengths on every executable path exercised here.) -/
def unsupUVEntries (st : DensePoseChartLossState) (rs : ResampleFn)
    (key : String) (t tp : Tensor4) (pa : PackedAnnotations)
    (pos_index : List Bool) (maskOpt : Option (List Bool))
    (pred_index : List (List ℕ)) (weightsOpt : Option (List ℚ)) :
    List (String × TVal) :=
  let est0 := maskFilter (rowsSelected t pa.bbox_indices st.n_channels) pos_index
  let pseudo0 :=
    maskFilter
      (rowsAll (rs tp pa.bbox_xywh_gt pa.bbox_xywh_est st.heatmap_size st.heatmap_size
        "nearest" "zeros") st.n_channels)
      pos_index
  let pseudo1 := if st.pseudo_threshold < 1 then maskFilter pseudo0 (maskOpt.getD []) else pseudo0
  let est1 := if st.pseudo_threshold < 1 then maskFilter est0 (maskOpt.getD []) else est0
  let pseudoG := listBind (List.range st.uv_loss_channels) (fun i =>
    (pseudo1.zip pred_index).map (fun p => p.1.getD (p.2.getD i 0) 0))
  let estG := listBind (List.range st.uv_loss_channels) (fun i =>
    (est1.zip pred_index).map (fun p => p.1.getD (p.2.getD i 0) 0))
  let lossL := List.zipWith smoothL1 estG pseudoG
  if st.loss_name = "sce" then
    [(key, ⟨some ((List.zipWith (fun a b => a * b) lossL (weightsOpt.getD [])).sum
        * st.w_p_points), [t.name]⟩)]
  else if st.loss_name = "ce" then
    [(key, ⟨(meanQOpt lossL).map (fun x => x * st.w_p_points), [t.name]⟩)]
  else []

/-- The tail of the pseudo-branch loop (the `u_p` and `v_p` iterations):
a missing pseudo field discards everything accumulated so far and returns
the full fake pseudo map. -/
def restUV (st : DensePoseChartLossState) (rs : ResampleFn)
    (outputs : DensePoseOutputs) (pa : PackedAnnotations)
    (pos_index : List Bool) (maskOpt : Option (List Bool))
    (pred_index : List (List ℕ)) (weightsOpt : Option (List ℚ))
    (acc : LossDict) : Except String LossDict :=
  match pa.u_p with
  | none => Except.ok (produce_fake_densepose_losses_unsup outputs)
  | some upT =>
    let uE := unsupUVEntries st rs "loss_u_p" outputs.u upT pa pos_index maskOpt
      pred_index weightsOpt
    match pa.v_p with
    | none => Except.ok (produce_fake_densepose_losses_unsup outputs)
    | some vpT =>
      let vE := unsupUVEntries st rs "loss_v_p" outputs.v vpT pa pos_index maskOpt
        pred_index weightsOpt
      Except.ok (acc ++ uE ++ vE)

/-- `produce_densepose_losses_unsup`: the semi-supervised pseudo-label
branch.  `logq` abstracts `torch.log`.  The `"sce"` path with an inactive
gate dereferences the `None` mask in the source (`loss * (1 - mask)`), which
raises; this is modelled as `Except.error`. -/
def produce_densepose_losses_unsup (st : DensePoseChartLossState)
    (rs : ResampleFn) (ce : CEFn) (logq : ℚ → ℚ) (outputs : DensePoseOutputs)
    (pa : PackedAnnotations) : Except String LossDict :=
  let pos_index := posIndex st rs pa
  match pa.fine_segm_p with
  | none => Except.ok (produce_fake_densepose_losses_unsup outputs)
  | some fsp =>
    let est0 := maskFilter (rowsSelected outputs.fine_segm pa.bbox_indices st.n_channels)
      pos_index
    let pseudo := unsupPseudoRows st rs pa fsp
    let segm_conf := unsupSegmConf st rs pa fsp
    let pred_index0 := pseudo.map (fun row => (argsortDesc row).take st.uv_loss_channels)
    match unsupGate st segm_conf pred_index0 est0 with
    | none => Except.ok (produce_fake_densepose_losses_unsup outputs)
    | some (maskOpt, predI, estG, _confG) =>
      let lossS := List.zipWith (fun row pi => ce row (pi.headD 0)) estG predI
      if st.loss_name = "sce" then
        match maskOpt with
        | none => Except.error "TypeError: unsupported operand 1 - mask with mask None"
        | some mask =>
          let maskQ := mask.map (fun b => if b then (1 : ℚ) else 0)
          let label_one_hot := predI.map (fun pi => oneHotClamp st.n_channels (pi.headD 0))
          let rce_rows := List.zipWith
            (fun erow oh => (List.zipWith (fun e o => -(1 : ℚ) * e * logq o) erow oh).sum)
            estG label_one_hot
          let rce := meanQOpt (List.zipWith (fun a b => a * b) rce_rows maskQ)
          let weights := maskQ.map (fun m => m / maskQ.sum)
          let segmVal : Option ℚ := rce.map (fun r =>
            (zipWith3Q (fun l m w_ => (l * (1 - m) + r) * w_) lossS maskQ weights).sum)
          restUV st rs outputs pa pos_index (some mask) predI (some weights)
            [("loss_unsup_segm",
              ⟨segmVal.map (fun x => x * st.w_p_segm), [outputs.fine_segm.name]⟩)]
      else if st.loss_name = "ce" then
        restUV st rs outputs pa pos_index maskOpt predI none
          [("loss_unsup_segm",
            ⟨(meanQOpt lossS).map (fun x => x * st.w_p_segm), [outputs.fine_segm.name]⟩)]
      else
        restUV st rs outputs pa pos_index maskOpt predI none []

/-- Proposal instances are opaque to this module (only their count and the
external packer consume them). -/
abbrev Instances : Type := ℕ

namespace DensePoseChartLoss

/-- `DensePoseChartLoss.__call__`: the loss orchestrator.  `packFn` abstracts
`extract_packed_annotations_from_matches` (returns `none` when no usable
annotations exist), `buildHlp` abstracts
`BilinearInterpolationHelper.from_matches`, and `segmLossFn` abstracts the
external coarse/mask segmentation loss call. -/
def call (st : DensePoseChartLossState)
    (packFn : List Instances → Option PackedAnnotations)
    (buildHlp : PackedAnnotations → ℕ × ℕ → BilinearInterpolationHelper)
    (segmLossFn : List Instances → DensePoseOutputs → PackedAnnotations → TVal)
    (rs : ResampleFn) (ce : CEFn) (logq : ℚ → ℚ)
    (proposals : List Instances) (outputs : DensePoseOutputs)
    (corrections : Option CorrectorPredictorOutput) : Except String LossDict :=
  if proposals.length = 0 then
    Except.ok (produce_fake_densepose_losses outputs corrections)
  else
    match packFn proposals with
    | none => Except.ok (produce_fake_densepose_losses outputs corrections)
    | some pa =>
      let hlp := buildHlp pa (outputs.u.h, outputs.u.w)
      let j_valid_fg :=
        List.zipWith (fun v g => v && decide (0 < g)) hlp.j_valid pa.fine_segm_labels_gt
      if j_valid_fg.any id = false then
        Except.ok (produce_fake_densepose_losses outputs corrections)
      else
        let losses_uv := produce_densepose_losses_uv st outputs pa hlp j_valid_fg corrections
        let losses_segm := produce_densepose_losses_segm st ce
          (segmLossFn proposals outputs pa) outputs pa hlp corrections
        match produce_densepose_losses_unsup st rs ce logq outputs pa with
        | Except.error e => Except.error e
        | Except.ok losses_unsup => Except.ok (losses_uv ++ losses_segm ++ losses_unsup)

end DensePoseChartLoss

/-
Concrete instruments used by witnesses and counterexamples: an identity-style
resampler (only the output spatial size is adjusted, data is reused), a
projection cross entropy, and the identity standing in for `log`.
-/

/-- A concrete resampler for closed instances: keeps the tensor data and
batch/channel shape, adjusts the output spatial size. -/
def rsId : ResampleFn := fun t _ _ hh ww _ _ => { t with h := hh, w := ww }

/-- A concrete per-row cross entropy for closed instances: project the score
row at the target index. -/
def ceProj : CEFn := fun row t_ => row.getD t_ 0

/-- A concrete stand-in for `log` in closed instances (never exercised by the
`"ce"` paths used below). -/
def logId : ℚ → ℚ := fun q => q

instance : DecidableEq (Except String LossDict) := fun a b =>
  match a, b with
  | Except.error e1, Except.error e2 =>
    if h : e1 = e2 then isTrue (by rw [h]) else isFalse (by simp [h])
  | Except.error _, Except.ok _ => isFalse (by simp)
  | Except.ok _, Except.error _ => isFalse (by simp)
  | Except.ok d1, Except.ok d2 =>
    if h : d1 = d2 then isTrue (by rw [h]) else isFalse (by simp [h])

/-
Shared helper lemmas.
-/

lemma maskFilter_all_false {α : Type} (xs : List α) (m : List Bool)
    (h : m.all (fun b => b = false) = true) : maskFilter xs m = [] := by
  induction m generalizing xs with
  | nil => cases xs <;> simp [maskFilter]
  | cons b bs ih =>
    cases xs with
    | nil => simp [maskFilter]
    | cons x xs' =>
      simp only [List.all_cons, Bool.and_eq_true, decide_eq_true_eq] at h
      simp only [maskFilter, List.zip_cons_cons, List.filterMap_cons, h.1, if_false]
      exact ih xs' h.2

lemma count_true_zero_of_all_lt (th : ℚ) (conf : List ℚ)
    (h : conf.all (fun c_ => decide (c_ < th)) = true) :
    (conf.map (fun c_ => decide (th ≤ c_))).count true = 0 := by
  induction conf with
  | nil => simp
  | cons c cs ih =>
    simp only [List.all_cons, Bool.and_eq_true, decide_eq_true_eq] at h
    simp [List.count_cons, ih h.2, decide_eq_true_eq, not_le.mpr h.1]

lemma maskFilter_map_self (p : ℚ → Bool) (xs : List ℚ) :
    maskFilter xs (xs.map p) = xs.filter p := by
  induction xs with
  | nil => simp [maskFilter]
  | cons x xs' ih =>
    simp only [maskFilter, List.map_cons, List.zip_cons_cons, List.filterMap_cons,
      List.filter_cons] at ih ⊢
    cases hp : p x <;> simp [hp, ih]

lemma zipWith_validfg_any_false (a : List Bool) (b : List ℕ)
    (h : ∀ j, ¬(a.getD j false = true ∧ 0 < b.getD j 0)) :
    (List.zipWith (fun v g => v && decide (0 < g)) a b).any id = false := by
  induction a generalizing b with
  | nil => simp
  | cons x xs ih =>
    cases b with
    | nil => simp
    | cons y ys =>
      have h0 := h 0
      simp only [List.getD_cons_zero] at h0
      have hx : (x && decide (0 < y)) = false := by
        cases x with
        | false => simp
        | true => simp only [Bool.true_and]; simp at h0 ⊢; exact h0
      have ht := ih ys (fun j => by have := h (j + 1); simpa using this)
      simp only [List.zipWith_cons_cons, List.any_cons, hx, ht, id]
      simp

/-
Concrete fixtures for closed instances (shared across witnesses and
counterexamples; each claim has its own theorem statements).
-/

/-- A small concrete loss state: heatmap 1x1, two fine channels, all weights
1, `"ce"` pseudo loss, confidence threshold 1. -/
def stCE : DensePoseChartLossState :=
  { heatmap_size := 1, w_points := 1, w_part := 1, w_segm := 1, n_segm_chan := 2,
    segm_trained_by_masks := false, w_p_segm := 1, w_p_points := 1,
    pseudo_threshold := 1, n_channels := 2, loss_name := "ce",
    uv_loss_channels := 1, w_crt_points := 1, w_crt_segm := 1 }

/-- The concrete teacher fine-segmentation pseudo tensor: max confidence 1/2
(strictly below 1) at its single position. -/
def fspCE : Tensor4 := ⟨"fsp", 1, 2, 1, 1, fun _ ch _ _ => if ch = 0 then 1/2 else 1/4⟩

/-- Concrete packed annotations: one annotated point with a foreground
label, an all-foreground ground-truth coarse segmentation, and all three
pseudo fields present. -/
def paCE : PackedAnnotations :=
  { fine_segm_labels_gt := [1], u_gt := [2/5], v_gt := [3/5],
    coarse_segm_gt := ⟨"csgt", 1, 1, 1, fun _ _ _ => 1⟩,
    bbox_xywh_gt := [[0, 0, 1, 1]], bbox_xywh_est := [[0, 0, 1, 1]],
    bbox_indices := [0],
    fine_segm_p := some fspCE,
    u_p := some ⟨"up", 1, 2, 1, 1, fun _ _ _ _ => 1/3⟩,
    v_p := some ⟨"vp", 1, 2, 1, 1, fun _ _ _ _ => 1/3⟩ }

/-- `paCE` with an all-zero ground-truth coarse segmentation, so that the
resampled foreground selection of the pseudo branch is empty. -/
def paCEempty : PackedAnnotations :=
  { paCE with coarse_segm_gt := ⟨"csgt", 1, 1, 1, fun _ _ _ => 0⟩ }

/-- Concrete predictor outputs matching `paCE` (one region, two channels,
1x1 resolution). -/
def outCE : DensePoseOutputs :=
  { coarse_segm := ⟨"cs", 1, 2, 1, 1, fun _ _ _ _ => 1⟩,
    fine_segm := ⟨"fs", 1, 2, 1, 1, fun _ ch _ _ => if ch = 0 then 3 else 1⟩,
    u := ⟨"u", 1, 2, 1, 1, fun _ _ _ _ => 2/3⟩,
    v := ⟨"v", 1, 2, 1, 1, fun _ _ _ _ => 2/3⟩ }

/-- A concrete packer that finds no usable annotations. -/
def packNone : List Instances → Option PackedAnnotations := fun _ => none

/-- A concrete interpolation helper with one valid point whose bilinear
weights select the low corner. -/
def hlpCE : BilinearInterpolationHelper :=
  { j_valid := [true], pt_bbox_indices := [0], y_lo := [0], y_hi := [0],
    x_lo := [0], x_hi := [0], w_ylo_xlo := [1], w_ylo_xhi := [0],
    w_yhi_xlo := [0], w_yhi_xhi := [0], slice_fine_segm := [1] }

/-- A concrete interpolator builder returning `hlpCE`. -/
def buildHlpCE : PackedAnnotations → ℕ × ℕ → BilinearInterpolationHelper :=
  fun _ _ => hlpCE

/-- A concrete external coarse-segmentation loss. -/
def segmLossCE : List Instances → DensePoseOutputs → PackedAnnotations → TVal :=
  fun _ outputs _ => ⟨some 1, [outputs.coarse_segm.name]⟩

/-
C1.
-/

/-- C1: for every call to the loss orchestrator, if the proposals list is
empty, or packing the annotations yields `None`, or no annotated point is
both interpolator-valid and has `fine_segm_labels_gt > 0`, then the returned
LossMap is exactly the fake-loss map for all branches, and every value of
that map equals zero (so no point-level loss is computed). -/
theorem C1_degenerate_inputs_give_fake_losses
    (st : DensePoseChartLossState)
    (packFn : List Instances → Option PackedAnnotations)
    (buildHlp : PackedAnnotations → ℕ × ℕ → BilinearInterpolationHelper)
    (segmLossFn : List Instances → DensePoseOutputs → PackedAnnotations → TVal)
    (rs : ResampleFn) (ce : CEFn) (logq : ℚ → ℚ)
    (proposals : List Instances) (outputs : DensePoseOutputs)
    (corrections : Option CorrectorPredictorOutput)
    (h : proposals = [] ∨ packFn proposals = none ∨
      (∀ pa, packFn proposals = some pa →
        ∀ j, ¬((buildHlp pa (outputs.u.h, outputs.u.w)).j_valid.getD j false = true ∧
          0 < pa.fine_segm_labels_gt.getD j 0))) :
    DensePoseChartLoss.call st packFn buildHlp segmLossFn rs ce logq proposals outputs
        corrections
      = Except.ok (produce_fake_densepose_losses outputs corrections)
    ∧ ∀ kv ∈ produce_fake_densepose_losses outputs corrections, kv.2.val = some 0 := by
  constructor
  · rcases h with h | h | h
    · subst h
      simp [DensePoseChartLoss.call]
    · by_cases hlen : proposals.length = 0
      · simp [DensePoseChartLoss.call, hlen]
      · simp [DensePoseChartLoss.call, hlen, h]
    · by_cases hlen : proposals.length = 0
      · simp [DensePoseChartLoss.call, hlen]
      · cases hpk : packFn proposals with
        | none => simp [DensePoseChartLoss.call, hlen, hpk]
        | some pa =>
          have hany := zipWith_validfg_any_false
            (buildHlp pa (outputs.u.h, outputs.u.w)).j_valid pa.fine_segm_labels_gt
            (h pa hpk)
          simp [DensePoseChartLoss.call, hlen, hpk, hany]
  · intro kv hkv
    cases corrections with
    | none =>
      simp only [produce_fake_densepose_losses, produce_fake_densepose_losses_uv,
        produce_fake_densepose_losses_segm, produce_fake_densepose_losses_unsup,
        segmLossFakeValue, List.append_nil, List.mem_append, List.mem_cons,
        List.not_mem_nil, or_false] at hkv
      rcases hkv with ((h | h) | h | h) | h | h | h <;> subst h <;> simp [TVal.smul, sumT]
    | some corr =>
      simp only [produce_fake_densepose_losses, produce_fake_densepose_losses_uv,
        produce_fake_densepose_losses_segm, produce_fake_densepose_losses_unsup,
        segmLossFakeValue, List.append_nil, List.mem_append, List.mem_cons,
        List.not_mem_nil, or_false] at hkv
      rcases hkv with (((h | h) | h | h) | (h | h) | h) | h | h | h <;> subst h <;>
        simp [TVal.smul, sumT]

/-- Witness for C1: with an empty proposals list (and concrete fixtures for
every other argument) the orchestrator returns the fake-loss map, whose
values are all zero. -/
theorem C1_degenerate_inputs_give_fake_losses_witness :
    ([] : List Instances) = [] ∧
    (DensePoseChartLoss.call stCE packNone buildHlpCE segmLossCE rsId ceProj logId []
        outCE none
      = Except.ok (produce_fake_densepose_losses outCE none)
    ∧ ∀ kv ∈ produce_fake_densepose_losses outCE none, kv.2.val = some 0) :=
  ⟨rfl, C1_degenerate_inputs_give_fake_losses stCE packNone buildHlpCE segmLossCE rsId
    ceProj logId [] outCE none (Or.inl rfl)⟩

/-
C9.
-/

/-- A configuration that is invalid per the spec: threshold outside `[0, 1]`
and a `loss_name` that is neither `"ce"` nor `"sce"`. -/
def cfgBad : Cfg :=
  { heatmap_size := 1, point_regression_weights := 1, part_weights := 1,
    index_weights := 1, num_coarse_segm_channels := 2,
    coarse_segm_trained_by_masks := false, semi_segm_weights := 1,
    semi_points_weights := 1, semi_threshold := 2, num_patches := 1,
    semi_loss_name := "bad", semi_uv_loss_channels := 1,
    cor_points_weights := 1, cor_segm_weights := 1 }

/-- C9 counterexample: constructing the loss with `pseudo_threshold = 2`
(outside `[0, 1]`) and `loss_name = "bad"` (neither `"ce"` nor `"sce"`)
succeeds — the constructor performs no validation and does not raise,
contradicting the claim that construction fails fast. -/
theorem C9_counterexample :
    ¬(0 ≤ cfgBad.semi_threshold ∧ cfgBad.semi_threshold ≤ 1)
    ∧ cfgBad.semi_loss_name ≠ "ce" ∧ cfgBad.semi_loss_name ≠ "sce"
    ∧ DensePoseChartLoss.initE cfgBad = Except.ok (DensePoseChartLoss.init cfgBad) := by
  refine ⟨by norm_num [cfgBad], by decide, by decide, rfl⟩


/-- C9 amended: the constructor accepts every configuration without
validation (it never raises); an unsupported `loss_name` is silently
accepted, surfacing only later as a pseudo-branch LossMap that is missing
the pseudo keys entirely (here: the empty map). -/
theorem C9_amended_constructor_never_raises :
    (∀ cfg : Cfg, DensePoseChartLoss.initE cfg = Except.ok (DensePoseChartLoss.init cfg))
    ∧ produce_densepose_losses_unsup (DensePoseChartLoss.init cfgBad) rsId ceProj logId
        outCE paCE = Except.ok ([] : LossDict) := by
  exact ⟨fun _ => rfl, by with_unfolding_all rfl⟩

/-
C7.
-/

/-- The loss map actually produced in the C7 counterexample run. -/
def MC7 : LossDict :=
  [("loss_unsup_segm", ⟨some 3, ["fs"]⟩),
   ("loss_u_p", ⟨some (1/18), ["u"]⟩),
   ("loss_v_p", ⟨some (1/18), ["v"]⟩)]

/-- C7 counterexample: with `pseudo_threshold = 1.0` and every pseudo
max-confidence strictly below 1 (here 1/2), the pseudo branch does NOT fall
back to the fake losses — it computes real losses over all foreground
points, because the gate `if pseudo_threshold < 1` disables confidence
gating entirely at threshold 1. -/
theorem C7_counterexample :
    stCE.pseudo_threshold = 1
    ∧ paCE.fine_segm_p = some fspCE
    ∧ (unsupSegmConf stCE rsId paCE fspCE).all (fun c_ => decide (c_ < 1)) = true
    ∧ produce_densepose_losses_unsup stCE rsId ceProj logId outCE paCE = Except.ok MC7
    ∧ MC7 ≠ produce_fake_densepose_losses_unsup outCE := by
  refine ⟨rfl, rfl, by with_unfolding_all rfl, by with_unfolding_all rfl,
    by with_unfolding_all decide⟩

/-- C7 amended: the confidence gate applies only when
`pseudo_threshold < 1`; at `pseudo_threshold >= 1` (in particular at 1.0)
gating is skipped entirely — all points are kept and no gate fallback can
occur.  When `pseudo_threshold < 1`, exactly the points with
`segm_conf >= pseudo_threshold` are kept, and if none remain the branch
returns the pseudo fake losses. -/
theorem C7_amended_threshold_one_disables_gating
    (st : DensePoseChartLossState) (conf : List ℚ) (pi : List (List ℕ))
    (est : List (List ℚ)) (rs : ResampleFn) (ce : CEFn) (logq : ℚ → ℚ)
    (outputs : DensePoseOutputs) (pa : PackedAnnotations) (fsp : Tensor4) :
    (1 ≤ st.pseudo_threshold → unsupGate st conf pi est = some (none, pi, est, conf))
    ∧ (st.pseudo_threshold < 1 →
        ((conf.all (fun c_ => decide (c_ < st.pseudo_threshold)) = true →
          unsupGate st conf pi est = none)
        ∧ (∀ mo p e c, unsupGate st conf pi est = some (mo, p, e, c) →
            mo = some (conf.map (fun c_ => decide (st.pseudo_threshold ≤ c_)))
            ∧ c = conf.filter (fun c_ => decide (st.pseudo_threshold ≤ c_)))))
    ∧ (pa.fine_segm_p = some fsp → st.pseudo_threshold < 1 →
        (unsupSegmConf st rs pa fsp).all
          (fun c_ => decide (c_ < st.pseudo_threshold)) = true →
        produce_densepose_losses_unsup st rs ce logq outputs pa
          = Except.ok (produce_fake_densepose_losses_unsup outputs)) := by
  refine ⟨?_, ?_, ?_⟩
  · intro h1
    simp [unsupGate, not_lt.mpr h1]
  · intro hlt
    constructor
    · intro hall
      simp [unsupGate, hlt, count_true_zero_of_all_lt st.pseudo_threshold conf hall]
    · intro mo p e c hg
      simp only [unsupGate, if_pos hlt] at hg
      by_cases hc : (conf.map (fun c_ => decide (st.pseudo_threshold ≤ c_))).count true = 0
      · simp [hc] at hg
      · rw [if_neg hc] at hg
        have h2 := Option.some.inj hg
        constructor
        · exact (congrArg Prod.fst h2).symm
        · have h4 := congrArg
            (fun x : Option (List Bool) × List (List ℕ) × List (List ℚ) × List ℚ =>
              x.2.2.2) h2
          simp only at h4
          rw [← h4, maskFilter_map_self]
  · intro hfsp hlt hall
    have hg : unsupGate st (unsupSegmConf st rs pa fsp)
        ((unsupPseudoRows st rs pa fsp).map
          (fun row => (argsortDesc row).take st.uv_loss_channels))
        (maskFilter (rowsSelected outputs.fine_segm pa.bbox_indices st.n_channels)
          (posIndex st rs pa)) = none := by
      simp [unsupGate, hlt,
        count_true_zero_of_all_lt st.pseudo_threshold (unsupSegmConf st rs pa fsp) hall]
    simp only [produce_densepose_losses_unsup, hfsp, hg]

/-- Witness for C7 amended: at threshold 1/2 with the single confidence 1/4
below it, the branch returns the pseudo fake losses. -/
theorem C7_amended_threshold_one_disables_gating_witness :
    ({ stCE with pseudo_threshold := 1/2 }).pseudo_threshold < 1
    ∧ produce_densepose_losses_unsup { stCE with pseudo_threshold := 1/2 } rsId ceProj
        logId outCE
        { paCE with fine_segm_p := some ⟨"fsp", 1, 2, 1, 1, fun _ _ _ _ => 1/4⟩ }
      = Except.ok (produce_fake_densepose_losses_unsup outCE) :=
  ⟨by norm_num,
    (C7_amended_threshold_one_disables_gating { stCE with pseudo_threshold := 1/2 }
      [] [] [] rsId ceProj logId outCE
      { paCE with fine_segm_p := some ⟨"fsp", 1, 2, 1, 1, fun _ _ _ _ => 1/4⟩ }
      ⟨"fsp", 1, 2, 1, 1, fun _ _ _ _ => 1/4⟩).2.2 rfl (by norm_num)
      (by with_unfolding_all rfl)⟩

/-
C8.
-/

/-- The spec-side formula for the foreground position mask: flatten the
`> 0` test of channel 0 of the resampled tensor. -/
def posIndexSpec (t : Tensor4) : List Bool :=
  listBind (List.range t.n) (fun i =>
    listBind (List.range t.h) (fun y =>
      (List.range t.w).map (fun x => decide (0 < t.data i 0 y x))))

/-- The loss map actually produced in the C8 counterexample run: all three
pseudo values are NaN (mean over an empty selection), not fake zeros. -/
def MC8 : LossDict :=
  [("loss_unsup_segm", ⟨none, ["fs"]⟩),
   ("loss_u_p", ⟨none, ["u"]⟩),
   ("loss_v_p", ⟨none, ["v"]⟩)]

/-- C8 counterexample: with `pseudo_threshold = 1` (a value inside `[0, 1]`)
and an empty resampled foreground selection, the pseudo branch does NOT fall
back to the fake losses: it produces NaN values (means of empty tensors).
The claimed fallback "for every value of pseudo_threshold" fails. -/
theorem C8_counterexample :
    (0 ≤ stCE.pseudo_threshold ∧ stCE.pseudo_threshold ≤ 1)
    ∧ (posIndex stCE rsId paCEempty).all (fun b => b = false) = true
    ∧ produce_densepose_losses_unsup stCE rsId ceProj logId outCE paCEempty
        = Except.ok MC8
    ∧ MC8 ≠ produce_fake_densepose_losses_unsup outCE := by
  refine ⟨by norm_num [stCE], by with_unfolding_all rfl, by with_unfolding_all rfl,
    by with_unfolding_all decide⟩

/-- C8 amended: `pos_index` is the flattened `> 0` test of the ground-truth
coarse segmentation resampled from ground-truth to estimated box geometry at
`heatmap_size` with nearest-neighbor mode and zero padding; and when
`pseudo_threshold < 1`, an empty selection makes the branch fall back to the
pseudo fake losses (via the then-empty confidence mask).  (At
`pseudo_threshold >= 1` there is no such fallback; see the counterexample.) -/
theorem C8_amended_empty_selection_fallback
    (st : DensePoseChartLossState) (rs : ResampleFn) (ce : CEFn) (logq : ℚ → ℚ)
    (outputs : DensePoseOutputs) (pa : PackedAnnotations) :
    posIndex st rs pa
      = posIndexSpec (rs (unsqueeze1 pa.coarse_segm_gt) pa.bbox_xywh_gt
          pa.bbox_xywh_est st.heatmap_size st.heatmap_size "nearest" "zeros")
    ∧ (st.pseudo_threshold < 1 →
        (posIndex st rs pa).all (fun b => b = false) = true →
        produce_densepose_losses_unsup st rs ce logq outputs pa
          = Except.ok (produce_fake_densepose_losses_unsup outputs)) := by
  constructor
  · rfl
  · intro hlt hall
    cases hfsp : pa.fine_segm_p with
    | none => simp [produce_densepose_losses_unsup, hfsp]
    | some fsp =>
      have hrows : unsupPseudoRows st rs pa fsp = [] :=
        maskFilter_all_false _ _ hall
      have hconf : unsupSegmConf st rs pa fsp = [] := by
        simp [unsupSegmConf, hrows]
      have hg : unsupGate st (unsupSegmConf st rs pa fsp)
          ((unsupPseudoRows st rs pa fsp).map
            (fun row => (argsortDesc row).take st.uv_loss_channels))
          (maskFilter (rowsSelected outputs.fine_segm pa.bbox_indices st.n_channels)
            (posIndex st rs pa)) = none := by
        simp [unsupGate, hlt, hconf]
      simp only [produce_densepose_losses_unsup, hfsp, hg]

/-- Witness for C8 amended: at threshold 1/2 with an all-zero ground-truth
coarse segmentation (empty selection), the branch returns the pseudo fake
losses. -/
theorem C8_amended_empty_selection_fallback_witness :
    ({ stCE with pseudo_threshold := 1/2 }).pseudo_threshold < 1
    ∧ (posIndex { stCE with pseudo_threshold := 1/2 } rsId paCEempty).all
        (fun b => b = false) = true
    ∧ produce_densepose_losses_unsup { stCE with pseudo_threshold := 1/2 } rsId ceProj
        logId outCE paCEempty
      = Except.ok (produce_fake_densepose_losses_unsup outCE) :=
  ⟨by norm_num, by with_unfolding_all rfl,
    (C8_amended_empty_selection_fallback { stCE with pseudo_threshold := 1/2 } rsId
      ceProj logId outCE paCEempty).2 (by norm_num) (by with_unfolding_all rfl)⟩

/-
C3.
-/

/-- Concrete outputs for the single-point regression scenario: constant
estimates `u = v = 1/2`. -/
def outUV : DensePoseOutputs :=
  { coarse_segm := ⟨"cs", 1, 2, 1, 1, fun _ _ _ _ => 1⟩,
    fine_segm := ⟨"fs", 1, 2, 1, 1, fun _ _ _ _ => 1⟩,
    u := ⟨"u", 1, 2, 1, 1, fun _ _ _ _ => 1/2⟩,
    v := ⟨"v", 1, 2, 1, 1, fun _ _ _ _ => 1/2⟩ }

/-- C3: on the real path, `loss_densepose_U` is the sum-reduced smooth-L1
loss between the U values extracted at annotated points restricted to the
valid-foreground mask and the likewise-restricted `u_gt`, multiplied by
`w_points`; identically for V.  In particular, for a single valid point with
`u_gt = 2/5` and extracted estimate `1/2`, the loss is `1/200 * w_points`
(= 0.005 * w_points). -/
theorem C3_uv_regression_smooth_l1_sum
    (st : DensePoseChartLossState) (outputs : DensePoseOutputs)
    (pa : PackedAnnotations) (hlp : BilinearInterpolationHelper)
    (j_valid_fg : List Bool) (corrections : Option CorrectorPredictorOutput) :
    dictLookup (produce_densepose_losses_uv st outputs pa hlp j_valid_fg corrections)
        "loss_densepose_U"
      = some ⟨some ((List.zipWith smoothL1
            (maskFilter (extract_at_points hlp outputs.u) j_valid_fg)
            (maskFilter pa.u_gt j_valid_fg)).sum * st.w_points), [outputs.u.name]⟩
    ∧ dictLookup (produce_densepose_losses_uv st outputs pa hlp j_valid_fg corrections)
        "loss_densepose_V"
      = some ⟨some ((List.zipWith smoothL1
            (maskFilter (extract_at_points hlp outputs.v) j_valid_fg)
            (maskFilter pa.v_gt j_valid_fg)).sum * st.w_points), [outputs.v.name]⟩
    ∧ (∀ w : ℚ, dictLookup (produce_densepose_losses_uv { stCE with w_points := w }
          outUV paCE hlpCE [true] none) "loss_densepose_U"
        = some ⟨some (1/200 * w), ["u"]⟩) := by
  refine ⟨?_, ?_, ?_⟩
  · cases corrections <;> rfl
  · cases corrections <;> rfl
  · intro w
    have e1 : maskFilter (extract_at_points hlpCE outUV.u) [true] = [1/2] := by
      with_unfolding_all rfl
    have e2 : maskFilter paCE.u_gt [true] = [2/5] := by with_unfolding_all rfl
    have hU : dictLookup (produce_densepose_losses_uv { stCE with w_points := w }
        outUV paCE hlpCE [true] none) "loss_densepose_U"
        = some ⟨some ((List.zipWith smoothL1
            (maskFilter (extract_at_points hlpCE outUV.u) [true])
            (maskFilter paCE.u_gt [true])).sum * w), ["u"]⟩ := rfl
    have e3 : smoothL1 (1/2 : ℚ) (2/5) = 1/200 := by
      rw [smoothL1, show (1/2 : ℚ) - 2/5 = 1/10 by norm_num,
        abs_of_pos (by norm_num : (0 : ℚ) < 1/10)]
      norm_num
    rw [hU, e1, e2,
      show List.zipWith smoothL1 [(1:ℚ)/2] [(2:ℚ)/5] = [smoothL1 (1/2) (2/5)] from rfl,
      e3, List.sum_cons, List.sum_nil, add_zero]

/-
C4.
-/

/-- An interpolation helper with two valid points reading two different grid
columns of region 0. -/
def hlpTwo : BilinearInterpolationHelper :=
  { j_valid := [true, true], pt_bbox_indices := [0, 0], y_lo := [0, 0],
    y_hi := [0, 0], x_lo := [0, 1], x_hi := [0, 1], w_ylo_xlo := [1, 1],
    w_ylo_xhi := [0, 0], w_yhi_xlo := [0, 0], w_yhi_xhi := [0, 0],
    slice_fine_segm := [0, 2] }

/-- Packed annotations with two annotated points: the first is a background
point (label 0), the second a foreground point (label 2). -/
def paTwo : PackedAnnotations :=
  { paCE with fine_segm_labels_gt := [0, 2], u_gt := [2/5, 1/2], v_gt := [3/5, 1/2] }

/-- Outputs with three fine-segmentation channels whose scores at both grid
columns equal the channel index. -/
def outSeg : DensePoseOutputs :=
  { coarse_segm := ⟨"cs", 1, 2, 1, 2, fun _ _ _ _ => 1⟩,
    fine_segm := ⟨"fs", 1, 3, 1, 2, fun _ ch _ _ => (ch : ℚ)⟩,
    u := ⟨"u", 1, 3, 1, 2, fun _ _ _ _ => 1/2⟩,
    v := ⟨"v", 1, 3, 1, 2, fun _ _ _ _ => 1/2⟩ }

/-- C4: `loss_densepose_I` gathers labels and full-channel extracted score
rows at ALL interpolator-valid points (`j_valid`, including background points
with label 0, unlike the foreground-restricted mask used for U/V), and is
the mean-reduced cross entropy over those points times `w_part`.  The closed
instance has a background point (label 0) and a foreground point (label 2):
the mean runs over both ((0 + 2)/2 = 1), so the result is `1 * w_part = 5`;
a foreground-only gather would have given `2 * w_part = 10`. -/
theorem C4_fine_segm_ce_over_all_valid_points
    (st : DensePoseChartLossState) (ce : CEFn) (segmLossVal : TVal)
    (outputs : DensePoseOutputs) (pa : PackedAnnotations)
    (hlp : BilinearInterpolationHelper)
    (corrections : Option CorrectorPredictorOutput) :
    dictLookup (produce_densepose_losses_segm st ce segmLossVal outputs pa hlp
        corrections) "loss_densepose_I"
      = some ⟨(meanQOpt (List.zipWith ce
            (maskFilter (extract_at_points_all hlp outputs.fine_segm) hlp.j_valid)
            (maskFilter pa.fine_segm_labels_gt hlp.j_valid))).map
              (fun x => x * st.w_part),
          [outputs.fine_segm.name]⟩
    ∧ dictLookup (produce_densepose_losses_segm { stCE with w_part := 5 } ceProj
          ⟨some 1, ["cs"]⟩ outSeg paTwo hlpTwo none) "loss_densepose_I"
      = some ⟨some 5, ["fs"]⟩ := by
  refine ⟨?_, ?_⟩
  · cases corrections <;> rfl
  · with_unfolding_all rfl

/-
C5.
-/

/-- The spec-side description of the correction classification loss list:
per valid point, if the base prediction argmax agrees with ground truth the
target is the abstain class `nCh` and the per-point CE is doubled; otherwise
the target is the true label at single weight. -/
def correctionCEList (ce : CEFn) (nCh : ℕ) (ests crts : List (List ℚ))
    (gts : List ℕ) : List ℚ :=
  (ests.zip (crts.zip gts)).map (fun p =>
    if argmaxIdx p.1 = p.2.2 then ce p.2.1 nCh * 2 else ce p.2.1 p.2.2)

lemma crt_loss2_eq (ce : CEFn) (nCh : ℕ) (ests crts : List (List ℚ))
    (gts : List ℕ) :
    List.zipWith (fun b l => if b then l else l * 2)
      (List.zipWith (fun row g => decide (argmaxIdx row ≠ g)) ests gts)
      (List.zipWith ce crts
        (List.zipWith (fun b g => if b then g else nCh)
          (List.zipWith (fun row g => decide (argmaxIdx row ≠ g)) ests gts) gts))
    = correctionCEList ce nCh ests crts gts := by
  induction ests generalizing crts gts with
  | nil => cases crts <;> cases gts <;> simp [correctionCEList]
  | cons e es ih =>
    cases crts with
    | nil => cases gts <;> simp [correctionCEList]
    | cons r rs =>
      cases gts with
      | nil => simp [correctionCEList]
      | cons g gs =>
        simp only [List.zipWith_cons_cons, correctionCEList, List.zip_cons_cons,
          List.map_cons]
        congr 1
        · by_cases h : argmaxIdx e = g <;> simp [h]
        · exact ih rs gs

/-- Concrete correction outputs: constant corrected U/V estimates `1/5` and
a four-channel correction score row `[10, 11, 12, 13]` at every position. -/
def corrCE : CorrectorPredictorOutput :=
  { u := ⟨"cu", 1, 4, 1, 2, fun _ _ _ _ => 1/5⟩,
    v := ⟨"cv", 1, 4, 1, 2, fun _ _ _ _ => 1/5⟩,
    fine_segm := ⟨"cfs", 1, 4, 1, 2, fun _ ch _ _ => 10 + (ch : ℚ)⟩ }

/-- Outputs whose base fine-segmentation rows are `[0, 5, 0]` at column 0
(argmax 1) and `[7, 0, 0]` at column 1 (argmax 0). -/
def outSegFive : DensePoseOutputs :=
  { coarse_segm := ⟨"cs", 1, 2, 1, 2, fun _ _ _ _ => 1⟩,
    fine_segm := ⟨"fs", 1, 3, 1, 2, fun _ ch _ x =>
      if x = 0 then (if ch = 1 then 5 else 0) else (if ch = 0 then 7 else 0)⟩,
    u := ⟨"u", 1, 3, 1, 2, fun _ _ _ _ => 1/2⟩,
    v := ⟨"v", 1, 3, 1, 2, fun _ _ _ _ => 1/2⟩ }

/-- Annotations for the correction scenario: ground-truth labels `[1, 2]`,
so the base prediction agrees at point 0 and disagrees at point 1. -/
def paFive : PackedAnnotations :=
  { paCE with fine_segm_labels_gt := [1, 2], u_gt := [2/5, 1/2], v_gt := [3/5, 1/2] }

/-- C5: with corrections present, the correction classification target at
every `j_valid` point defaults to the abstain index `n_channels`, is
replaced by the true label exactly at points where the base argmax disagrees
with ground truth, and agreement points are weighted 2x before
mean-reduction and scaling by `w_crt_segm`.  In the closed instance the
agreeing point contributes `ce(crt_row, 3) * 2 = 26` and the disagreeing
point `ce(crt_row, 2) = 12`, giving `mean = 19` and loss `19 * 2 = 38`. -/
theorem C5_correction_classification_abstain_and_double_weight
    (st : DensePoseChartLossState) (ce : CEFn) (segmLossVal : TVal)
    (outputs : DensePoseOutputs) (pa : PackedAnnotations)
    (hlp : BilinearInterpolationHelper) (corr : CorrectorPredictorOutput) :
    dictLookup (produce_densepose_losses_segm st ce segmLossVal outputs pa hlp
        (some corr)) "loss_correction_I"
      = some ⟨(meanQOpt (correctionCEList ce st.n_channels
            (maskFilter (extract_at_points_all hlp outputs.fine_segm) hlp.j_valid)
            (maskFilter (extract_at_points_all hlp corr.fine_segm) hlp.j_valid)
            (maskFilter pa.fine_segm_labels_gt hlp.j_valid))).map
              (fun x => x * st.w_crt_segm),
          [corr.fine_segm.name]⟩
    ∧ dictLookup (produce_densepose_losses_segm
          { stCE with n_channels := 3, w_crt_segm := 2 } ceProj ⟨some 1, ["cs"]⟩
          outSegFive paFive hlpTwo (some corrCE)) "loss_correction_I"
      = some ⟨some 38, ["cfs"]⟩ := by
  refine ⟨?_, ?_⟩
  · rw [← crt_loss2_eq]
    rfl
  · with_unfolding_all rfl

/-
C6.
-/

/-- C6: with corrections present, the correction U target is the residual
`u_gt - clamp(u_est, 0, 1)` over valid-foreground points (detached — the
loss value is graph-connected to the correction tensor only, not to the base
estimate), and `loss_correction_U` is the sum-reduced smooth-L1 between the
extracted corrected U and this residual, times `w_crt_points`; identically
for V. -/
theorem C6_correction_regression_residual_target
    (st : DensePoseChartLossState) (outputs : DensePoseOutputs)
    (pa : PackedAnnotations) (hlp : BilinearInterpolationHelper)
    (j_valid_fg : List Bool) (corr : CorrectorPredictorOutput)
    (h1 : outputs.u.name ≠ corr.u.name) (h2 : outputs.v.name ≠ corr.v.name) :
    dictLookup (produce_densepose_losses_uv st outputs pa hlp j_valid_fg (some corr))
        "loss_correction_U"
      = some ⟨some ((List.zipWith smoothL1
            (maskFilter (extract_at_points hlp corr.u) j_valid_fg)
            (List.zipWith (fun g e => g - clamp01 e)
              (maskFilter pa.u_gt j_valid_fg)
              (maskFilter (extract_at_points hlp outputs.u) j_valid_fg))).sum
          * st.w_crt_points), [corr.u.name]⟩
    ∧ dictLookup (produce_densepose_losses_uv st outputs pa hlp j_valid_fg (some corr))
        "loss_correction_V"
      = some ⟨some ((List.zipWith smoothL1
            (maskFilter (extract_at_points hlp corr.v) j_valid_fg)
            (List.zipWith (fun g e => g - clamp01 e)
              (maskFilter pa.v_gt j_valid_fg)
              (maskFilter (extract_at_points hlp outputs.v) j_valid_fg))).sum
          * st.w_crt_points), [corr.v.name]⟩
    ∧ (∀ tv, dictLookup (produce_densepose_losses_uv st outputs pa hlp j_valid_fg
          (some corr)) "loss_correction_U" = some tv → outputs.u.name ∉ tv.deps)
    ∧ (∀ tv, dictLookup (produce_densepose_losses_uv st outputs pa hlp j_valid_fg
          (some corr)) "loss_correction_V" = some tv → outputs.v.name ∉ tv.deps) := by
  have hU : dictLookup (produce_densepose_losses_uv st outputs pa hlp j_valid_fg
      (some corr)) "loss_correction_U"
      = some ⟨some ((List.zipWith smoothL1
            (maskFilter (extract_at_points hlp corr.u) j_valid_fg)
            (List.zipWith (fun g e => g - clamp01 e)
              (maskFilter pa.u_gt j_valid_fg)
              (maskFilter (extract_at_points hlp outputs.u) j_valid_fg))).sum
          * st.w_crt_points), [corr.u.name]⟩ := rfl
  have hV : dictLookup (produce_densepose_losses_uv st outputs pa hlp j_valid_fg
      (some corr)) "loss_correction_V"
      = some ⟨some ((List.zipWith smoothL1
            (maskFilter (extract_at_points hlp corr.v) j_valid_fg)
            (List.zipWith (fun g e => g - clamp01 e)
              (maskFilter pa.v_gt j_valid_fg)
              (maskFilter (extract_at_points hlp outputs.v) j_valid_fg))).sum
          * st.w_crt_points), [corr.v.name]⟩ := rfl
  refine ⟨hU, hV, ?_, ?_⟩
  · intro tv htv
    rw [hU] at htv
    have := (Option.some.inj htv).symm
    subst this
    simp [h1]
  · intro tv htv
    rw [hV] at htv
    have := (Option.some.inj htv).symm
    subst this
    simp [h2]

/-- Witness for C6: concrete outputs (`"u"`, `"v"`) and correction tensors
(`"cu"`, `"cv"`); the correction loss value is `smoothL1(1/5, -1/10) =
9/200` and carries no dependence on the base estimate tensor. -/
theorem C6_correction_regression_residual_target_witness :
    outUV.u.name ≠ corrCE.u.name ∧ outUV.v.name ≠ corrCE.v.name
    ∧ (∀ tv, dictLookup (produce_densepose_losses_uv stCE outUV paCE hlpCE [true]
        (some corrCE)) "loss_correction_U" = some tv → outUV.u.name ∉ tv.deps)
    ∧ dictLookup (produce_densepose_losses_uv stCE outUV paCE hlpCE [true]
        (some corrCE)) "loss_correction_U" = some ⟨some (9/200), ["cu"]⟩ :=
  ⟨by decide, by decide,
    (C6_correction_regression_residual_target stCE outUV paCE hlpCE [true] corrCE
      (by decide) (by decide)).2.2.1,
    by with_unfolding_all rfl⟩

/-
Shared lemmas on the pseudo-branch result structure.
-/

lemma unsupUVEntries_keys (st : DensePoseChartLossState) (rs : ResampleFn)
    (key : String) (t tp : Tensor4) (pa : PackedAnnotations)
    (pos_index : List Bool) (maskOpt : Option (List Bool))
    (predI : List (List ℕ)) (weightsOpt : Option (List ℚ))
    (hname : st.loss_name = "ce" ∨ st.loss_name = "sce") :
    (unsupUVEntries st rs key t tp pa pos_index maskOpt predI weightsOpt).map Prod.fst
      = [key] := by
  rcases hname with h | h <;> simp [unsupUVEntries, h]

lemma restUV_ok (st : DensePoseChartLossState) (rs : ResampleFn)
    (outputs : DensePoseOutputs) (pa : PackedAnnotations) (pos_index : List Bool)
    (maskOpt : Option (List Bool)) (predI : List (List ℕ))
    (weightsOpt : Option (List ℚ)) (acc : LossDict) (m : LossDict)
    (hok : restUV st rs outputs pa pos_index maskOpt predI weightsOpt acc
      = Except.ok m) :
    m = produce_fake_densepose_losses_unsup outputs
    ∨ ∃ upT vpT, pa.u_p = some upT ∧ pa.v_p = some vpT ∧
        m = acc
          ++ unsupUVEntries st rs "loss_u_p" outputs.u upT pa pos_index maskOpt predI
              weightsOpt
          ++ unsupUVEntries st rs "loss_v_p" outputs.v vpT pa pos_index maskOpt predI
              weightsOpt := by
  unfold restUV at hok
  cases hu : pa.u_p with
  | none =>
    rw [hu] at hok
    exact Or.inl (Except.ok.inj hok).symm
  | some upT =>
    rw [hu] at hok
    cases hv : pa.v_p with
    | none =>
      rw [hv] at hok
      exact Or.inl (Except.ok.inj hok).symm
    | some vpT =>
      rw [hv] at hok
      exact Or.inr ⟨upT, vpT, rfl, rfl, (Except.ok.inj hok).symm⟩

lemma unsup_ok_keys (st : DensePoseChartLossState) (rs : ResampleFn) (ce : CEFn)
    (logq : ℚ → ℚ) (outputs : DensePoseOutputs) (pa : PackedAnnotations)
    (m : LossDict) (hname : st.loss_name = "ce" ∨ st.loss_name = "sce")
    (hok : produce_densepose_losses_unsup st rs ce logq outputs pa = Except.ok m) :
    m.map Prod.fst = ["loss_unsup_segm", "loss_u_p", "loss_v_p"] := by
  cases hf : pa.fine_segm_p with
  | none =>
    simp only [produce_densepose_losses_unsup, hf] at hok
    rw [← Except.ok.inj hok]
    rfl
  | some fsp =>
    simp only [produce_densepose_losses_unsup, hf] at hok
    rcases hg : unsupGate st (unsupSegmConf st rs pa fsp)
        ((unsupPseudoRows st rs pa fsp).map
          (fun row => (argsortDesc row).take st.uv_loss_channels))
        (maskFilter (rowsSelected outputs.fine_segm pa.bbox_indices st.n_channels)
          (posIndex st rs pa))
      with _ | ⟨maskOpt, predI, estG, confG⟩
    · rw [hg] at hok
      rw [← Except.ok.inj hok]
      rfl
    · rw [hg] at hok
      rcases hname with h | h
      · rw [h] at hok
        simp only [reduceIte] at hok
        rcases restUV_ok st rs outputs pa _ _ _ _ _ m hok with
          hfake | ⟨upT, vpT, hu, hv, hm⟩
        · rw [hfake]; rfl
        · rw [hm]
          simp [List.map_append,
            unsupUVEntries_keys st rs "loss_u_p" outputs.u upT pa _ _ _ _ (Or.inl h),
            unsupUVEntries_keys st rs "loss_v_p" outputs.v vpT pa _ _ _ _ (Or.inl h)]
      · rw [h] at hok
        simp only [reduceIte] at hok
        cases maskOpt with
        | none => exact absurd hok (by simp)
        | some mask =>
          rcases restUV_ok st rs outputs pa _ _ _ _ _ m hok with
            hfake | ⟨upT, vpT, hu, hv, hm⟩
          · rw [hfake]; rfl
          · rw [hm]
            simp [List.map_append,
              unsupUVEntries_keys st rs "loss_u_p" outputs.u upT pa _ _ _ _ (Or.inr h),
              unsupUVEntries_keys st rs "loss_v_p" outputs.v vpT pa _ _ _ _ (Or.inr h)]

lemma unsup_ok_missing_uv_fake (st : DensePoseChartLossState) (rs : ResampleFn)
    (ce : CEFn) (logq : ℚ → ℚ) (outputs : DensePoseOutputs)
    (pa : PackedAnnotations) (m : LossDict)
    (hmiss : pa.u_p = none ∨ pa.v_p = none)
    (hok : produce_densepose_losses_unsup st rs ce logq outputs pa = Except.ok m) :
    m = produce_fake_densepose_losses_unsup outputs := by
  have hrest : ∀ pos maskOpt predI weightsOpt acc,
      restUV st rs outputs pa pos maskOpt predI weightsOpt acc = Except.ok m →
      m = produce_fake_densepose_losses_unsup outputs := by
    intro pos maskOpt predI weightsOpt acc hok2
    rcases restUV_ok st rs outputs pa pos maskOpt predI weightsOpt acc m hok2 with
      hfake | ⟨upT, vpT, hu, hv, _⟩
    · exact hfake
    · rcases hmiss with hm1 | hm1
      · rw [hm1] at hu; exact absurd hu (by simp)
      · rw [hm1] at hv; exact absurd hv (by simp)
  cases hf : pa.fine_segm_p with
  | none =>
    simp only [produce_densepose_losses_unsup, hf] at hok
    exact (Except.ok.inj hok).symm
  | some fsp =>
    simp only [produce_densepose_losses_unsup, hf] at hok
    rcases hg : unsupGate st (unsupSegmConf st rs pa fsp)
        ((unsupPseudoRows st rs pa fsp).map
          (fun row => (argsortDesc row).take st.uv_loss_channels))
        (maskFilter (rowsSelected outputs.fine_segm pa.bbox_indices st.n_channels)
          (posIndex st rs pa))
      with _ | ⟨maskOpt, predI, estG, confG⟩
    · rw [hg] at hok
      exact (Except.ok.inj hok).symm
    · simp only [hg] at hok
      by_cases h1 : st.loss_name = "sce"
      · rw [if_pos h1] at hok
        cases maskOpt with
        | none => exact absurd hok (by simp)
        | some mask => exact hrest _ _ _ _ _ hok
      · rw [if_neg h1] at hok
        by_cases h2 : st.loss_name = "ce"
        · rw [if_pos h2] at hok
          exact hrest _ _ _ _ _ hok
        · rw [if_neg h2] at hok
          exact hrest _ _ _ _ _ hok

/-
C2.
-/

/-- C2: every fake loss value is the sum of the corresponding real output
tensor multiplied by zero — its value is zero and it stays graph-connected
(nonempty dependency set naming the corresponding tensor, never a bare
literal zero) — and the key list of the fake-path map equals exactly
`loss_densepose_U/V/I/S`, `loss_unsup_segm`, `loss_u_p`, `loss_v_p`, plus
`loss_correction_U/V/I` exactly when corrections are present, which is also
the key list the real path produces under the same corrections
configuration. -/
theorem C2_fake_losses_graph_connected_and_key_sets
    (st : DensePoseChartLossState) (rs : ResampleFn) (ce : CEFn) (logq : ℚ → ℚ)
    (outputs : DensePoseOutputs) (corrections : Option CorrectorPredictorOutput)
    (hname : st.loss_name = "ce" ∨ st.loss_name = "sce") :
    (∀ kv ∈ produce_fake_densepose_losses outputs corrections,
      kv.2.val = some 0 ∧ kv.2.deps ≠ [])
    ∧ (produce_fake_densepose_losses outputs corrections).map
        (fun kv => (kv.1, kv.2.deps))
      = ([("loss_densepose_U", [outputs.u.name]),
          ("loss_densepose_V", [outputs.v.name])]
          ++ (match corrections with
              | none => []
              | some corr => [("loss_correction_U", [corr.u.name]),
                  ("loss_correction_V", [corr.v.name])])
          ++ [("loss_densepose_I", [outputs.fine_segm.name]),
              ("loss_densepose_S", [outputs.coarse_segm.name])]
          ++ (match corrections with
              | none => []
              | some corr => [("loss_correction_I", [corr.fine_segm.name])])
          ++ [("loss_unsup_segm", [outputs.fine_segm.name]),
              ("loss_u_p", [outputs.u.name]), ("loss_v_p", [outputs.v.name])])
    ∧ (∀ (pa : PackedAnnotations) (hlp : BilinearInterpolationHelper)
        (j_valid_fg : List Bool) (segmLossVal : TVal) (m : LossDict),
        produce_densepose_losses_unsup st rs ce logq outputs pa = Except.ok m →
        (produce_densepose_losses_uv st outputs pa hlp j_valid_fg corrections
          ++ produce_densepose_losses_segm st ce segmLossVal outputs pa hlp corrections
          ++ m).map Prod.fst
        = (produce_fake_densepose_losses outputs corrections).map Prod.fst) := by
  refine ⟨?_, ?_, ?_⟩
  · intro kv hkv
    cases corrections with
    | none =>
      simp only [produce_fake_densepose_losses, produce_fake_densepose_losses_uv,
        produce_fake_densepose_losses_segm, produce_fake_densepose_losses_unsup,
        segmLossFakeValue, List.append_nil, List.mem_append, List.mem_cons,
        List.not_mem_nil, or_false] at hkv
      rcases hkv with ((h | h) | h | h) | h | h | h <;> subst h <;>
        simp [TVal.smul, sumT]
    | some corr =>
      simp only [produce_fake_densepose_losses, produce_fake_densepose_losses_uv,
        produce_fake_densepose_losses_segm, produce_fake_densepose_losses_unsup,
        segmLossFakeValue, List.append_nil, List.mem_append, List.mem_cons,
        List.not_mem_nil, or_false] at hkv
      rcases hkv with (((h | h) | h | h) | (h | h) | h) | h | h | h <;> subst h <;>
        simp [TVal.smul, sumT]
  · cases corrections <;> rfl
  · intro pa hlp j_valid_fg segmLossVal m hok
    have hm := unsup_ok_keys st rs ce logq outputs pa m hname hok
    cases corrections <;>
      simp [List.map_append, hm, produce_densepose_losses_uv,
        produce_densepose_losses_segm, produce_fake_densepose_losses,
        produce_fake_densepose_losses_uv, produce_fake_densepose_losses_segm,
        produce_fake_densepose_losses_unsup]

/-- Witness for C2: with `loss_name = "ce"`, concrete outputs and no
corrections, the fake map's key/dependency structure is the enumerated
list. -/
theorem C2_fake_losses_graph_connected_and_key_sets_witness :
    (stCE.loss_name = "ce" ∨ stCE.loss_name = "sce")
    ∧ (produce_fake_densepose_losses outCE none).map (fun kv => (kv.1, kv.2.deps))
      = ([("loss_densepose_U", [outCE.u.name]), ("loss_densepose_V", [outCE.v.name])]
          ++ (match (none : Option CorrectorPredictorOutput) with
              | none => []
              | some corr => [("loss_correction_U", [corr.u.name]),
                  ("loss_correction_V", [corr.v.name])])
          ++ [("loss_densepose_I", [outCE.fine_segm.name]),
              ("loss_densepose_S", [outCE.coarse_segm.name])]
          ++ (match (none : Option CorrectorPredictorOutput) with
              | none => []
              | some corr => [("loss_correction_I", [corr.fine_segm.name])])
          ++ [("loss_unsup_segm", [outCE.fine_segm.name]),
              ("loss_u_p", [outCE.u.name]), ("loss_v_p", [outCE.v.name])]) :=
  ⟨Or.inl rfl,
    (C2_fake_losses_graph_connected_and_key_sets stCE rsId ceProj logId outCE none
      (Or.inl rfl)).2.1⟩

/-
C10.
-/

/-- C10: the pseudo branch is atomic over its three output keys: every
successfully returned map has exactly the keys `loss_unsup_segm`,
`loss_u_p`, `loss_v_p` (under a valid `loss_name`), and whenever `u_p` or
`v_p` is absent the branch discards anything already computed and returns
exactly the full fake pseudo map. -/
theorem C10_pseudo_branch_atomic
    (st : DensePoseChartLossState) (rs : ResampleFn) (ce : CEFn) (logq : ℚ → ℚ)
    (outputs : DensePoseOutputs) (pa : PackedAnnotations)
    (hname : st.loss_name = "ce" ∨ st.loss_name = "sce") :
    (∀ m, produce_densepose_losses_unsup st rs ce logq outputs pa = Except.ok m →
      m.map Prod.fst = ["loss_unsup_segm", "loss_u_p", "loss_v_p"])
    ∧ ((pa.u_p = none ∨ pa.v_p = none) →
      ∀ m, produce_densepose_losses_unsup st rs ce logq outputs pa = Except.ok m →
        m = produce_fake_densepose_losses_unsup outputs) :=
  ⟨fun m hok => unsup_ok_keys st rs ce logq outputs pa m hname hok,
   fun hmiss m hok => unsup_ok_missing_uv_fake st rs ce logq outputs pa m hmiss hok⟩

/-- Witness for C10: with `u_p` removed from otherwise-complete concrete
annotations, every successful result of the branch equals the fake pseudo
map (and the concrete run indeed returns it). -/
theorem C10_pseudo_branch_atomic_witness :
    (stCE.loss_name = "ce" ∨ stCE.loss_name = "sce")
    ∧ ({ paCE with u_p := none } : PackedAnnotations).u_p = none
    ∧ (∀ m, produce_densepose_losses_unsup stCE rsId ceProj logId outCE
        { paCE with u_p := none } = Except.ok m →
        m = produce_fake_densepose_losses_unsup outCE)
    ∧ produce_densepose_losses_unsup stCE rsId ceProj logId outCE
        { paCE with u_p := none }
      = Except.ok (produce_fake_densepose_losses_unsup outCE) :=
  ⟨Or.inl rfl, rfl,
    (C10_pseudo_branch_atomic stCE rsId ceProj logId outCE { paCE with u_p := none }
      (Or.inl rfl)).2 (Or.inl rfl),
    by with_unfolding_all rfl⟩

end DensePoseTeacher
